import Mathlib

/-!
# Verification of the feedback-document rendering pipeline

A shallow embedding of the renderer in `backend/app.py` of the
`tutor_chat` repository: the XML-escaping helper, the inline renderer
(`_inline_markup` / `_wrap_inline`), the block renderer
(`_element_to_flowables`, `_list_items_from_elements`), the markdown
fallback (`_markdown_to_flowables`), the document assembler
(`_create_estimation_pdf`), the font resolver (`_ensure_pdf_font`) and
the style registry (`_build_pdf_styles`).

Python strings are modelled as `List Char` (abbreviated `Str`); the
external markdown-to-HTML converter and the HTML-to-tree parser are
abstract parameters; flowables record the information this repository's
code puts into them (texts, style names, bullet configuration, start
numbers, spacer sizes).
-/

/-- Python strings are modelled as lists of characters. -/
abbrev Str := List Char

/-- Python `str.strip()`: drop whitespace from both ends.
(Whitespace is modelled by `Char.isWhitespace`.) -/
def pyStrip (s : Str) : Str :=
  ((s.dropWhile Char.isWhitespace).reverse.dropWhile Char.isWhitespace).reverse

/-- Python `str.rstrip()`: drop trailing whitespace. -/
def pyRStrip (s : Str) : Str :=
  (s.reverse.dropWhile Char.isWhitespace).reverse

/-- Python `str.strip("\n")`: drop leading and trailing newline characters. -/
def pyStripNewlines (s : Str) : Str :=
  ((s.dropWhile (· = '\n')).reverse.dropWhile (· = '\n')).reverse

/-- Python `s.count(pat)`: number of non-overlapping occurrences of `pat`
in `s`, scanning left to right. -/
def pyCount (pat : Str) : Str → Nat
  | [] => 0
  | c :: rest =>
    if pat.isPrefixOf (c :: rest) then
      1 + pyCount pat (List.drop (pat.length - 1) rest)
    else
      pyCount pat rest
termination_by s => s.length
decreasing_by
  · simp only [List.length_cons, List.length_drop]
    omega
  · simp only [List.length_cons]
    omega

/-- Digit value of a decimal digit character. -/
def digitVal (c : Char) : Nat := c.toNat - '0'.toNat

/-- Continuation of Python `int(str)` digit parsing: a run of decimal
digits in which a single underscore may stand between two digits. -/
def digitsCore : List Char → Nat → Option Nat
  | [], acc => some acc
  | '_' :: c :: rest, acc =>
    if c.isDigit then digitsCore rest (acc * 10 + digitVal c) else none
  | ['_'], _ => none
  | c :: rest, acc =>
    if c.isDigit then digitsCore rest (acc * 10 + digitVal c) else none

/-- Python `int(str)` core: at least one digit, then `digitsCore`. -/
def pyIntCore : List Char → Option Nat
  | [] => none
  | c :: rest => if c.isDigit then digitsCore rest (digitVal c) else none

/-- Python `int(str)`: strip whitespace, optional sign, decimal digits
(underscores allowed between digits); `none` models `ValueError`. -/
def pyInt (s : Str) : Option Int :=
  match pyStrip s with
  | '+' :: rest => (pyIntCore rest).map Int.ofNat
  | '-' :: rest => (pyIntCore rest).map (fun n => -(n : Int))
  | t => (pyIntCore t).map Int.ofNat

/-- `_escape_xml` (app.py:92-97): sequentially replaces `&` by `&amp;`,
then `<` by `&lt;`, then `>` by `&gt;`.  Because the ampersand pass runs
first and the later passes introduce no character replaced afterwards,
the sequential replacement equals this per-character expansion. -/
def escChar (c : Char) : Str :=
  if c = '&' then "&amp;".toList
  else if c = '<' then "&lt;".toList
  else if c = '>' then "&gt;".toList
  else [c]

/-- `_escape_xml` on a whole string. -/
def _escape_xml (text : Str) : Str :=
  text.flatMap escChar

/-- An element of the parsed feedback tree, mirroring
`xml.etree.ElementTree.Element`: tag, attributes, leading `text`,
`tail` text (the text that follows this element inside its parent) and
the list of child elements. -/
inductive Element where
  | mk (tag : String) (attrib : List (String × Str)) (text : Option Str)
      (tail : Option Str) (children : List Element)

def Element.tag : Element → String
  | .mk t _ _ _ _ => t

def Element.attrib : Element → List (String × Str)
  | .mk _ a _ _ _ => a

def Element.text : Element → Option Str
  | .mk _ _ tx _ _ => tx

def Element.tail : Element → Option Str
  | .mk _ _ _ tl _ => tl

def Element.children : Element → List Element
  | .mk _ _ _ _ cs => cs

/-- `element.attrib.get(key)`. -/
def attribGet (e : Element) (key : String) : Option Str :=
  (e.attrib.find? (fun p => p.1 == key)).map (·.2)

/-- `element.findall(tag)`: the direct children whose tag matches exactly. -/
def findall (e : Element) (t : String) : List Element :=
  e.children.filter (fun c => c.tag == t)

/-- An optional text fragment as yielded by `Element.itertext` (only
non-empty strings are yielded). -/
def optFrag : Option Str → List Str
  | some t => if t = [] then [] else [t]
  | none => []

mutual

/-- `element.itertext()`: the non-empty text fragments of the subtree in
document order (leading text, then each child's fragments followed by
its tail). -/
def itertextFrags : Element → List Str
  | .mk _ _ text _ children => optFrag text ++ itertextFragsList children

def itertextFragsList : List Element → List Str
  | [] => []
  | c :: cs => itertextFrags c ++ optFrag c.tail ++ itertextFragsList cs

end

/-- `"".join(element.itertext())`. -/
def itertextStr (e : Element) : Str :=
  (itertextFrags e).flatten

/-- Python `str.lower()`, mapping `Char.toLower` over the characters
(defined through the character list so that concrete instances
evaluate). -/
def pyLower (s : String) : String := String.mk (s.data.map Char.toLower)

/-- `sep.join(parts)`. -/
def joinSep (sep : Str) : List Str → Str
  | [] => []
  | [p] => p
  | p :: ps => p ++ sep ++ joinSep sep ps

mutual

/-- `_inline_markup` (app.py:179-187): escape the leading text, then for
each child append its wrapped rendering followed by its escaped tail. -/
def _inline_markup : Element → Str
  | .mk _ _ text _ children =>
    (match text with
     | some t => _escape_xml t
     | none => []) ++ inlineChildren children
termination_by e => (sizeOf e, 0)

/-- The `for child in node` loop body of `_inline_markup`. -/
def inlineChildren : List Element → Str
  | [] => []
  | child :: rest =>
    _wrap_inline child
      ++ (match child.tail with
          | some t => _escape_xml t
          | none => [])
      ++ inlineChildren rest
termination_by l => (sizeOf l, 0)

/-- `_wrap_inline` (app.py:190-211): dispatch on the lower-cased tag. -/
def _wrap_inline (node : Element) : Str :=
  let tag := pyLower node.tag
  if tag = "strong" ∨ tag = "b" then
    "<b>".toList ++ _inline_markup node ++ "</b>".toList
  else if tag = "em" ∨ tag = "i" then
    "<i>".toList ++ _inline_markup node ++ "</i>".toList
  else if tag = "code" then
    "<font name=\x27Courier\x27>".toList ++ _escape_xml (itertextStr node)
      ++ "</font>".toList
  else if tag = "br" then
    "<br/>".toList
  else if tag = "a" then
    let inner := _inline_markup node
    match attribGet node "href" with
    | some href =>
      if href ≠ [] then inner ++ " (".toList ++ _escape_xml href ++ ")".toList
      else inner
    | none => inner
  else if tag = "sub" then
    "<sub>".toList ++ _inline_markup node ++ "</sub>".toList
  else if tag = "sup" then
    "<sup>".toList ++ _inline_markup node ++ "</sup>".toList
  else
    _inline_markup node
termination_by (sizeOf node, 1)

end

/-- A layout unit handed to the external layout engine, recording the
data this repository's code puts into the corresponding reportlab
constructor: `Paragraph(text, style)`, `Preformatted(text, style)`,
`Spacer(width, height)` and `ListFlowable(items, bulletType,
bulletFontName, bulletFontSize, bulletChar, leftIndent, start)` whose
items are `(text, style)` paragraphs. -/
inductive Flowable where
  | paragraph (text : Str) (style : String)
  | preformatted (text : Str) (style : String)
  | spacer (width height : Nat)
  | listFlowable (items : List (Str × String)) (bulletType : String)
      (bulletFontName : String) (bulletFontSize : Nat)
      (bulletChar : Option Char) (leftIndent : Nat) (start : Option Int)
deriving DecidableEq

/-- `_list_items_from_elements` (app.py:214-221): keep each element whose
trimmed inline markup is non-empty, as a `ListBody` paragraph item. -/
def _list_items_from_elements (elements : List Element) : List (Str × String) :=
  elements.filterMap fun li =>
    let text := pyStrip (_inline_markup li)
    if text = [] then none else some (text, "ListBody")

/-- `_element_to_flowables` (app.py:224-307): dispatch a block element on
its lower-cased tag to a list of flowables. -/
def _element_to_flowables (element : Element) (font_name : String) : List Flowable :=
  let tag := pyLower element.tag
  if tag = "p" ∨ tag = "span" ∨ tag = "div" then
    let raw_text := pyStrip (itertextStr element)
    let markup := pyStrip (_inline_markup element)
    if markup = [] then [.spacer 1 6]
    else if "$$".toList.isPrefixOf raw_text ∧ "$$".toList.isSuffixOf raw_text
        ∧ pyCount "$$".toList raw_text ≥ 2 then
      [.preformatted raw_text "Code"]
    else
      [.paragraph markup "Body"]
  else if tag = "h1" ∨ tag = "h2" ∨ tag = "h3" then
    let heading_style :=
      if tag = "h1" then "Heading1"
      else if tag = "h2" then "Heading2"
      else "Heading3"
    [.paragraph (_inline_markup element) heading_style]
  else if tag = "ul" ∨ tag = "ol" then
    let items := _list_items_from_elements (findall element "li")
    if items = [] then []
    else
      let bullet_type := if tag = "ul" then "bullet" else "1"
      let start :=
        match attribGet element "start" with
        | some v => if v = [] then "1".toList else v
        | none => "1".toList
      let start_value : Option Int :=
        if tag = "ol" then some ((pyInt start).getD 1) else none
      [.listFlowable items bullet_type font_name 11
          (if tag = "ul" then some '•' else none) 12 start_value,
        .spacer 1 6]
  else if tag = "pre" then
    let code_text :=
      pyStripNewlines (joinSep "\n".toList ((itertextFrags element).map pyRStrip))
    [.preformatted (if code_text = [] then " ".toList else code_text) "Code"]
  else if tag = "code" then
    [.preformatted (itertextStr element) "Code"]
  else if tag = "blockquote" then
    let markup := pyStrip (_inline_markup element)
    if markup ≠ [] then
      [.paragraph markup "BlockQuote", .spacer 1 4]
    else []
  else if tag = "table" then
    let rows := (findall element "tr").map fun tr =>
      let cells := tr.children.map fun td => pyStrip (joinSep " ".toList (itertextFrags td))
      joinSep " | ".toList (cells.filter (· ≠ []))
    (rows.filter (· ≠ [])).map (fun row => Flowable.paragraph (_escape_xml row) "Body")
      ++ (if rows ≠ [] then [Flowable.spacer 1 6] else [])
  else
    let markup := pyStrip (_inline_markup element)
    if markup ≠ [] then [.paragraph markup "Body"]
    else [.spacer 1 4]

/-- The string `f"<root>{html}</root>"` fed to the tree parser. -/
def wrapRoot (html : Str) : Str :=
  "<root>".toList ++ html ++ "</root>".toList

/-- `_markdown_to_flowables` (app.py:310-326).  The external
markdown-to-HTML conversion and the HTML-to-tree parse are abstract
parameters `convert` and `parse` (`parse` returning `none` models
`ET.ParseError`). -/
def _markdown_to_flowables (convert : Str → Str) (parse : Str → Option Element)
    (feedback : Str) (font_name : String) : List Flowable :=
  let html := convert feedback
  if pyStrip html = [] then []
  else
    match parse (wrapRoot html) with
    | none => [.paragraph (_escape_xml feedback) "Body"]
    | some root => root.children.flatMap (fun c => _element_to_flowables c font_name)

/-- `_create_estimation_pdf` (app.py:435-469), up to the hand-off of the
story to the external layout engine: the ordered list of flowables.
The resolved font name and the formatted timestamp are parameters. -/
def _create_estimation_pdf (convert : Str → Str) (parse : Str → Option Element)
    (font_name : String) (timestamp : Str) (score : Option Str)
    (feedback : Str) : List Flowable :=
  [Flowable.paragraph "Результат оценки".toList "Heading1",
   Flowable.spacer 1 10,
   Flowable.paragraph ("Дата: ".toList ++ timestamp) "Meta"]
  ++ (match score with
      | some s =>
        if s ≠ [] then
          [Flowable.paragraph ("Оценка: <b>".toList ++ _escape_xml s ++ "</b>".toList) "Meta"]
        else []
      | none => [])
  ++ [Flowable.spacer 1 12,
      Flowable.paragraph "Обратная связь:".toList "Heading2",
      Flowable.spacer 1 6]
  ++ (let flowables := _markdown_to_flowables convert parse feedback font_name
      if flowables ≠ [] then flowables
      else [Flowable.paragraph "Нет обратной связи.".toList "Body"])

/-- `PDF_FONT_NAME` (app.py:48). -/
def PDF_FONT_NAME : String := "ExportSans"

/-- `PDF_FONT_VARIANTS` (app.py:49-54). -/
def PDF_FONT_VARIANTS : List (String × String) :=
  [("ExportSans", "LiberationSans-Regular.ttf"),
   ("ExportSans-Bold", "LiberationSans-Bold.ttf"),
   ("ExportSans-Italic", "LiberationSans-Italic.ttf"),
   ("ExportSans-BoldItalic", "LiberationSans-BoldItalic.ttf")]

/-- `PDF_FONT_SEARCH_DIRS` (app.py:55-59). -/
def PDF_FONT_SEARCH_DIRS : List String :=
  ["/usr/share/fonts/liberation-fonts",
   "/usr/share/fonts/truetype/liberation",
   "/usr/share/fonts"]

/-- The inner directory loop of `_ensure_pdf_font` for one variant file:
`true` iff some directory holds the file and its registration succeeds.
`fileExists dir file` models `(dir / file).exists()` and
`regOk dir file` models `pdfmetrics.registerFont` not raising; on a
registration failure the scan continues with the next directory. -/
def scanVariant (fileExists regOk : String → String → Bool)
    : List String → String → Bool
  | [], _ => false
  | d :: rest, filename =>
    if fileExists d filename then
      if regOk d filename then true
      else scanVariant fileExists regOk rest filename
    else scanVariant fileExists regOk rest filename

/-- `_ensure_pdf_font` (app.py:67-89).  `registered0` is the set of font
names already registered with the metrics registry; the function returns
the body font name to use — `PDF_FONT_NAME` when its regular variant is
(or becomes) registered, the fallback `"Helvetica"` otherwise. -/
def _ensure_pdf_font (registered0 : List String)
    (fileExists regOk : String → String → Bool) : String :=
  if PDF_FONT_NAME ∈ registered0 then PDF_FONT_NAME
  else
    let newly := PDF_FONT_VARIANTS.filterMap fun fv =>
      if fv.1 ∈ registered0 then none
      else if scanVariant fileExists regOk PDF_FONT_SEARCH_DIRS fv.2 then some fv.1
      else none
    if PDF_FONT_NAME ∈ registered0 ++ newly then PDF_FONT_NAME
    else "Helvetica"

/-- Modelled from the spec: the `FontResolver.resolve()` contract returns
the font identity together with a capability mark; the code records the
capability loss only as a logged warning (app.py:88), so the capability
component is reconstructed here — `"full"` for the primary font,
`"latin-only"` for the fallback. -/
def resolve (registered0 : List String)
    (fileExists regOk : String → String → Bool) : String × String :=
  let f := _ensure_pdf_font registered0 fileExists regOk
  (f, if f = PDF_FONT_NAME then "full" else "latin-only")

/-- The fields of a reportlab `ParagraphStyle` that
`_build_pdf_styles` sets explicitly (inherited base-sheet fields that
the code never sets are not modelled). -/
structure PStyle where
  fontName : String
  fontSize : Nat
  leading : Nat
  spaceBefore : Nat := 0
  spaceAfter : Nat := 0
  leftIndent : Nat := 0
  rightIndent : Nat := 0
  firstLineIndent : Nat := 0
  textColor : String := "black"
  backColor : Option String := none
deriving DecidableEq

/-- `_build_pdf_styles` (app.py:100-176): the eight named styles.  Every
derived style copies `body` and overrides fields, exactly as the
`parent=` chains do in the source. -/
def _build_pdf_styles (font_name : String) : List (String × PStyle) :=
  let body : PStyle :=
    { fontName := font_name, fontSize := 11, leading := 14, spaceAfter := 6 }
  let heading1 : PStyle :=
    { fontName := font_name, fontSize := 18, leading := 22, spaceAfter := 12 }
  let heading2 : PStyle :=
    { fontName := font_name, fontSize := 14, leading := 18, spaceAfter := 8 }
  let heading3 : PStyle :=
    { fontName := font_name, fontSize := 12, leading := 16, spaceAfter := 6 }
  let meta : PStyle := { body with textColor := "grey", spaceAfter := 4 }
  let list_body : PStyle := { body with leftIndent := 0, firstLineIndent := 0, spaceAfter := 2 }
  let blockquote : PStyle :=
    { body with leftIndent := 12, textColor := "darkgray", spaceBefore := 4, spaceAfter := 6 }
  let code : PStyle :=
    { body with
        fontName := "Courier",
        fontSize := 10,
        leading := 12,
        backColor := some "whitesmoke",
        leftIndent := 6,
        rightIndent := 6,
        spaceBefore := 4,
        spaceAfter := 8 }
  [("Body", body), ("Heading1", heading1), ("Heading2", heading2),
   ("Heading3", heading3), ("Meta", meta), ("ListBody", list_body),
   ("BlockQuote", blockquote), ("Code", code)]

/-- A string is free of unescaped reserved characters: it contains no
`<`, no `>`, and every `&` begins a complete `&amp;`, `&lt;` or `&gt;`
entity. -/
def noUnescaped : List Char → Bool
  | [] => true
  | c :: rest =>
    if c = '<' ∨ c = '>' then false
    else if c = '&' then
      if "amp;".toList.isPrefixOf rest ∨ "lt;".toList.isPrefixOf rest
          ∨ "gt;".toList.isPrefixOf rest then
        noUnescaped rest
      else false
    else noUnescaped rest

/-- A token of inline-renderer output: either a raw source fragment that
the renderer passes through `_escape_xml` exactly once, or a wrap marker
that the renderer inserts literally (never escaped). -/
inductive Tok where
  | esc (raw : Str)
  | marker (m : String)

/-- The string a token contributes to the rendered markup. -/
def tokStr : Tok → Str
  | .esc raw => _escape_xml raw
  | .marker m => m.toList

/-- The complete set of wrap markers `_wrap_inline` can insert. -/
def wrapMarkers : List String :=
  ["<b>", "</b>", "<i>", "</i>", "<font name=\x27Courier\x27>", "</font>",
   "<br/>", " (", ")", "<sub>", "</sub>", "<sup>", "</sup>"]

/-- A well-formed token: markers come from `wrapMarkers` (and markers
contain no reserved characters that would need escaping); escaped
fragments are arbitrary raw source text. -/
def TokWF : Tok → Prop
  | .esc _ => True
  | .marker m => m ∈ wrapMarkers

mutual

/-- Token decomposition of `_inline_markup`: the same traversal, but
keeping the escaped fragments and the inserted wrap markers apart. -/
def inlineToks : Element → List Tok
  | .mk _ _ text _ children =>
    (match text with
     | some t => [.esc t]
     | none => []) ++ inlineToksList children
termination_by e => (sizeOf e, 0)

/-- Token decomposition of `inlineChildren`. -/
def inlineToksList : List Element → List Tok
  | [] => []
  | child :: rest =>
    wrapToks child
      ++ (match child.tail with
          | some t => [Tok.esc t]
          | none => [])
      ++ inlineToksList rest
termination_by l => (sizeOf l, 0)

/-- Token decomposition of `_wrap_inline`. -/
def wrapToks (node : Element) : List Tok :=
  let tag := pyLower node.tag
  if tag = "strong" ∨ tag = "b" then
    [.marker "<b>"] ++ inlineToks node ++ [.marker "</b>"]
  else if tag = "em" ∨ tag = "i" then
    [.marker "<i>"] ++ inlineToks node ++ [.marker "</i>"]
  else if tag = "code" then
    [.marker "<font name=\x27Courier\x27>", .esc (itertextStr node), .marker "</font>"]
  else if tag = "br" then
    [.marker "<br/>"]
  else if tag = "a" then
    let inner := inlineToks node
    match attribGet node "href" with
    | some href =>
      if href ≠ [] then inner ++ [.marker " (", .esc href, .marker ")"]
      else inner
    | none => inner
  else if tag = "sub" then
    [.marker "<sub>"] ++ inlineToks node ++ [.marker "</sub>"]
  else if tag = "sup" then
    [.marker "<sup>"] ++ inlineToks node ++ [.marker "</sup>"]
  else
    inlineToks node
termination_by (sizeOf node, 1)

end

mutual

/-- Mutual induction principle for `Element` and its child lists. -/
theorem Element.inductionOn {P : Element → Prop} {Q : List Element → Prop}
    (hmk : ∀ t a tx tl cs, Q cs → P (Element.mk t a tx tl cs))
    (hnil : Q [])
    (hcons : ∀ c cs, P c → Q cs → Q (c :: cs)) :
    ∀ e, P e
  | .mk t a tx tl cs =>
    hmk t a tx tl cs (Element.listInductionOn hmk hnil hcons cs)

/-- Mutual induction principle, list part. -/
theorem Element.listInductionOn {P : Element → Prop} {Q : List Element → Prop}
    (hmk : ∀ t a tx tl cs, Q cs → P (Element.mk t a tx tl cs))
    (hnil : Q [])
    (hcons : ∀ c cs, P c → Q cs → Q (c :: cs)) :
    ∀ l, Q l
  | [] => hnil
  | c :: cs =>
    hcons c cs (Element.inductionOn hmk hnil hcons c)
      (Element.listInductionOn hmk hnil hcons cs)

end

/-- `raw_text` is wrapped in a literal double-dollar delimiter pair:
it starts and ends with `$$` and contains at least two non-overlapping
occurrences of `$$` (the condition of app.py:233). -/
def isDollarWrapped (r : Str) : Prop :=
  "$$".toList.isPrefixOf r ∧ "$$".toList.isSuffixOf r ∧ pyCount "$$".toList r ≥ 2

/-- Example: a `code` inline span whose text contains literal tag syntax
and which has a nested `b` child. -/
def exCodeSpan : Element :=
  .mk "code" [] (some "a<b>".toList) none [.mk "b" [] (some "x".toList) none []]

/-- Example: a `p` block whose only content is a `br` element (raw
descendant text is empty, inline markup is not). -/
def exBrPara : Element :=
  .mk "p" [] none none [.mk "br" [] none none []]

/-- Example: a `p` block holding a literal double-dollar formula. -/
def exDollarPara : Element :=
  .mk "p" [] (some "$$x+y$$".toList) none []

/-- Example: an unordered list with items `a`, ``, `b`. -/
def exUl : Element :=
  .mk "ul" [] none none
    [.mk "li" [] (some "a".toList) none [],
     .mk "li" [] (some "".toList) none [],
     .mk "li" [] (some "b".toList) none []]

/-- Example: an ordered list with the invalid attribute `start="abc"`. -/
def exOlBad : Element :=
  .mk "ol" [("start", "abc".toList)] none none
    [.mk "li" [] (some "x".toList) none []]

/-- Example: a table whose first row holds a `th` cell with text and
whose second row holds an empty `td` cell. -/
def exTableTh : Element :=
  .mk "table" [] none none
    [.mk "tr" [] none none [.mk "th" [] (some "x".toList) none []],
     .mk "tr" [] none none [.mk "td" [] (some "".toList) none []]]

/-- Example: an element with an unknown tag and no content. -/
def exUnknown : Element :=
  .mk "figure" [] none none []

/-- Example: an external converter whose HTML output is non-blank. -/
def convStub : Str → Str := fun _ => "x".toList

/-- Example: an external parse that always fails (`ET.ParseError`). -/
def parseFailStub : Str → Option Element := fun _ => none

/-- Example: a parsed feedback tree with one heading and one paragraph. -/
def exTree : Element :=
  .mk "root" [] none none
    [.mk "h2" [] (some "Result".toList) none [],
     .mk "p" [] (some "Great job!".toList) none []]

/-- Example: an external parse that always yields `exTree`. -/
def parseTreeStub : Str → Option Element := fun _ => some exTree

/-- A named style of the registry. -/
def styleFontName (styles : List (String × PStyle)) (role : String) : Option String :=
  ((styles.find? (fun p => p.1 == role)).map (fun p => p.2.fontName))

/-- The first number of an ordered list: the `start` attribute (an
absent or empty attribute defaults to the string `1`) parsed as an
integer, any parse failure normalized to 1 (app.py:253-257). -/
def olStart (e : Element) : Int :=
  (pyInt (match attribGet e "start" with
          | some v => if v = [] then "1".toList else v
          | none => "1".toList)).getD 1

/-- The escaping pass leaves no unescaped reserved character: its output
contains no `<` or `>`, and every `&` begins a complete entity. -/
theorem noUnescaped_escape_xml (s : Str) : noUnescaped (_escape_xml s) = true := by
  induction s with
  | nil => rfl
  | cons c rest ih =>
    have hx : _escape_xml (c :: rest) = escChar c ++ _escape_xml rest := by
      simp [_escape_xml]
    rw [hx]
    by_cases hamp : c = '&'
    · subst hamp
      simp [escChar, noUnescaped, List.isPrefixOf, ih]
    · by_cases hlt : c = '<'
      · subst hlt
        simp [escChar, noUnescaped, List.isPrefixOf, ih]
      · by_cases hgt : c = '>'
        · subst hgt
          simp [escChar, noUnescaped, List.isPrefixOf, ih]
        · simp [escChar, noUnescaped, hamp, hlt, hgt, ih]

/-- Tokens of a marker-wrapped inline rendering are well-formed when the
markers are renderer markers and the inner tokens are well-formed. -/
theorem tokWF_sandwich {m1 m2 : String} {node : Element}
    (hm1 : m1 ∈ wrapMarkers) (hm2 : m2 ∈ wrapMarkers)
    (hn : ∀ t ∈ inlineToks node, TokWF t) :
    ∀ t ∈ [Tok.marker m1] ++ inlineToks node ++ [Tok.marker m2], TokWF t := by
  intro t ht
  rcases List.mem_append.mp ht with h | h
  · rcases List.mem_append.mp h with h2 | h2
    · simp only [List.mem_singleton] at h2
      subst h2
      exact hm1
    · exact hn t h2
  · simp only [List.mem_singleton] at h
    subst h
    exact hm2

theorem inlineToks_spec (e0 : Element) :
    ((inlineToks e0).flatMap tokStr = _inline_markup e0 ∧ ∀ t ∈ inlineToks e0, TokWF t)
    ∧ ((wrapToks e0).flatMap tokStr = _wrap_inline e0 ∧ ∀ t ∈ wrapToks e0, TokWF t) := by
  refine Element.inductionOn (P := fun e =>
      ((inlineToks e).flatMap tokStr = _inline_markup e ∧ ∀ t ∈ inlineToks e, TokWF t)
      ∧ ((wrapToks e).flatMap tokStr = _wrap_inline e ∧ ∀ t ∈ wrapToks e, TokWF t))
    (Q := fun l =>
      (inlineToksList l).flatMap tokStr = inlineChildren l
      ∧ ∀ t ∈ inlineToksList l, TokWF t) ?_ ?_ ?_ e0
  · -- element case
    intro t a tx tl cs hq
    have hinl : (inlineToks (.mk t a tx tl cs)).flatMap tokStr
          = _inline_markup (.mk t a tx tl cs)
        ∧ ∀ tk ∈ inlineToks (Element.mk t a tx tl cs), TokWF tk := by
      constructor
      · cases tx <;> simp [inlineToks, _inline_markup, tokStr, hq.1]
      · intro tk htk
        cases tx <;> simp [inlineToks] at htk
        · exact hq.2 tk htk
        · rcases htk with h | h
          · subst h; trivial
          · exact hq.2 tk h
    refine ⟨hinl, ?_, ?_⟩
    · -- join equality for wrapToks vs _wrap_inline
      simp only [wrapToks, _wrap_inline]
      split_ifs <;>
        try simp [tokStr, hinl.1]
      -- remaining: the `a` branch
      cases hre : attribGet (Element.mk t a tx tl cs) "href" <;>
        simp [hre, tokStr, hinl.1]
      split_ifs <;> simp [tokStr, hinl.1]
    · -- WF for wrapToks
      intro tk htk
      simp only [wrapToks] at htk
      split_ifs at htk
      · exact tokWF_sandwich (by decide) (by decide) hinl.2 tk htk
      · exact tokWF_sandwich (by decide) (by decide) hinl.2 tk htk
      · simp only [List.mem_cons, List.not_mem_nil, or_false] at htk
        rcases htk with h | h | h
        · subst h; simp [TokWF, wrapMarkers]
        · subst h; trivial
        · subst h; simp [TokWF, wrapMarkers]
      · simp only [List.mem_singleton] at htk
        subst htk
        simp [TokWF, wrapMarkers]
      · rcases hre : attribGet (Element.mk t a tx tl cs) "href" with _ | href
        · simp only [hre] at htk
          exact hinl.2 tk htk
        · simp only [hre] at htk
          by_cases hh : href ≠ []
          · rw [if_pos hh] at htk
            rcases List.mem_append.mp htk with h | h
            · exact hinl.2 tk h
            · simp only [List.mem_cons, List.not_mem_nil, or_false] at h
              rcases h with h | h | h
              · subst h; simp [TokWF, wrapMarkers]
              · subst h; trivial
              · subst h; simp [TokWF, wrapMarkers]
          · rw [if_neg hh] at htk
            exact hinl.2 tk htk
      · exact tokWF_sandwich (by decide) (by decide) hinl.2 tk htk
      · exact tokWF_sandwich (by decide) (by decide) hinl.2 tk htk
      · exact hinl.2 tk htk
  · -- nil case
    exact ⟨by simp [inlineToksList, inlineChildren], by simp [inlineToksList]⟩
  · -- cons case
    intro c cs hc hcs
    constructor
    · cases htl : c.tail <;>
        simp [inlineToksList, inlineChildren, htl, tokStr, hc.2.1, hcs.1]
    · intro tk htk
      cases htl : c.tail <;> simp [inlineToksList, htl] at htk
      · rcases htk with h | h
        · exact hc.2.2 tk h
        · exact hcs.2 tk h
      · rcases htk with h | h | h
        · exact hc.2.2 tk h
        · subst h; trivial
        · exact hcs.2 tk h

/-- C1: for every inline node, the rendered markup is the concatenation
of source text fragments each passed through `_escape_xml` exactly once
and of wrap markers inserted literally (never escaped), applied before
the wrapping; and escaped fragments contain no unescaped `&`, `<`, `>`. -/
theorem c1_inline_escaping (e : Element) :
    (inlineToks e).flatMap tokStr = _inline_markup e
    ∧ (∀ t ∈ inlineToks e, TokWF t)
    ∧ (∀ s : Str, noUnescaped (_escape_xml s) = true) :=
  ⟨(inlineToks_spec e).1.1, (inlineToks_spec e).1.2,
    fun s => noUnescaped_escape_xml s⟩

/-- C8: a `code` inline span renders as the monospace wrap of the raw
concatenated descendant text, escaped; nested tags are never
interpreted. -/
theorem c8_code_span_literal (e : Element) (h : pyLower e.tag = "code") :
    _wrap_inline e =
      "<font name=\x27Courier\x27>".toList ++ _escape_xml (itertextStr e)
        ++ "</font>".toList := by
  simp [_wrap_inline, h]

/-- C8 witness: a code span with text `a<b>` and a nested `b` child
renders as literal escaped text, with no bold region. -/
theorem c8_code_span_literal_witness :
    _wrap_inline exCodeSpan = "<font name=\x27Courier\x27>a&lt;b&gt;x</font>".toList := by
  rw [c8_code_span_literal exCodeSpan (by rfl)]
  simp [exCodeSpan, itertextStr, itertextFrags, itertextFragsList, optFrag,
    Element.tail, _escape_xml, escChar]

/-- C2 counterexample: a `p` block whose raw concatenated descendant
text is empty (a lone `br` child) is rendered as a Body paragraph, not
as a spacer only. -/
theorem c2_counterexample :
    pyStrip (itertextStr exBrPara) = []
    ∧ _element_to_flowables exBrPara "Helvetica"
        = [Flowable.paragraph "<br/>".toList "Body"] := by
  constructor
  · simp [exBrPara, itertextStr, itertextFrags, itertextFragsList, optFrag,
      Element.tail, pyStrip]
  · simp [exBrPara, _element_to_flowables, Element.tag, Element.tail,
      show pyLower "p" = "p" from rfl, show pyLower "br" = "br" from rfl,
      _inline_markup, inlineChildren, _wrap_inline, itertextStr, itertextFrags,
      itertextFragsList, optFrag, pyStrip, _escape_xml, escChar]

/-- C2 (amended): for a `p`/`span`/`div` block, the spacer-only case is
decided by the trimmed inline-rendered markup being empty (not by the
raw text); otherwise a double-dollar-wrapped raw text yields one
preformatted Code unit holding the raw text, and any other content
yields one Body paragraph holding the markup. -/
theorem c2_spacer_formula_paragraph (e : Element) (fn : String)
    (h : pyLower e.tag = "p" ∨ pyLower e.tag = "span" ∨ pyLower e.tag = "div") :
    (pyStrip (_inline_markup e) = [] →
      _element_to_flowables e fn = [Flowable.spacer 1 6])
    ∧ (pyStrip (_inline_markup e) ≠ [] →
        isDollarWrapped (pyStrip (itertextStr e)) →
        _element_to_flowables e fn
          = [Flowable.preformatted (pyStrip (itertextStr e)) "Code"])
    ∧ (pyStrip (_inline_markup e) ≠ [] →
        ¬isDollarWrapped (pyStrip (itertextStr e)) →
        _element_to_flowables e fn
          = [Flowable.paragraph (pyStrip (_inline_markup e)) "Body"]) := by
  refine ⟨?_, ?_, ?_⟩
  · intro h1
    simp only [_element_to_flowables]
    rw [if_pos h, if_pos h1]
  · intro h1 h2
    simp only [isDollarWrapped] at h2
    simp only [_element_to_flowables]
    rw [if_pos h, if_neg h1, if_pos h2]
  · intro h1 h2
    simp only [isDollarWrapped] at h2
    simp only [_element_to_flowables]
    rw [if_pos h, if_neg h1, if_neg h2]

/-- C2 witness: the formula paragraph `$$x+y$$` is emitted raw as one
preformatted Code unit. -/
theorem c2_spacer_formula_paragraph_witness :
    pyStrip (_inline_markup exDollarPara) ≠ []
    ∧ isDollarWrapped (pyStrip (itertextStr exDollarPara))
    ∧ _element_to_flowables exDollarPara "Helvetica"
        = [Flowable.preformatted (pyStrip (itertextStr exDollarPara)) "Code"] := by
  have h1 : pyStrip (_inline_markup exDollarPara) ≠ [] := by
    simp [exDollarPara, _inline_markup, inlineChildren, _escape_xml, escChar, pyStrip]
  have h2 : isDollarWrapped (pyStrip (itertextStr exDollarPara)) := by
    simp [exDollarPara, isDollarWrapped, itertextStr, itertextFrags,
      itertextFragsList, optFrag, pyStrip, pyCount, List.isPrefixOf]
    decide
  exact ⟨h1, h2,
    (c2_spacer_formula_paragraph exDollarPara "Helvetica"
      (Or.inl (by rfl))).2.1 h1 h2⟩

/-- C3: when the markup-to-tree parse of the converted feedback fails,
the renderer does not fail: it degrades to exactly one escaped
plain-text Body paragraph holding the original input, and the assembled
document still holds the title unit and the metadata lines followed by
that fallback paragraph. -/
theorem c3_parse_failure_degrades (convert : Str → Str)
    (parse : Str → Option Element) (fn : String) (timestamp : Str)
    (score : Option Str) (feedback : Str)
    (hhtml : pyStrip (convert feedback) ≠ [])
    (hfail : parse (wrapRoot (convert feedback)) = none) :
    _markdown_to_flowables convert parse feedback fn
      = [Flowable.paragraph (_escape_xml feedback) "Body"]
    ∧ _create_estimation_pdf convert parse fn timestamp score feedback
      = [Flowable.paragraph "Результат оценки".toList "Heading1",
         Flowable.spacer 1 10,
         Flowable.paragraph ("Дата: ".toList ++ timestamp) "Meta"]
        ++ (match score with
            | some s =>
              if s ≠ [] then
                [Flowable.paragraph
                  ("Оценка: <b>".toList ++ _escape_xml s ++ "</b>".toList) "Meta"]
              else []
            | none => [])
        ++ [Flowable.spacer 1 12,
            Flowable.paragraph "Обратная связь:".toList "Heading2",
            Flowable.spacer 1 6,
            Flowable.paragraph (_escape_xml feedback) "Body"] := by
  have hm : _markdown_to_flowables convert parse feedback fn
      = [Flowable.paragraph (_escape_xml feedback) "Body"] := by
    simp only [_markdown_to_flowables]
    rw [if_neg hhtml, hfail]
  refine ⟨hm, ?_⟩
  simp only [_create_estimation_pdf, hm]
  simp

/-- C3 witness: the parse-failure fallback at a concrete input. -/
theorem c3_parse_failure_degrades_witness :
    _markdown_to_flowables convStub parseFailStub "hi".toList "Helvetica"
      = [Flowable.paragraph (_escape_xml "hi".toList) "Body"]
    ∧ _create_estimation_pdf convStub parseFailStub "Helvetica"
        "01.01.2026 00:00:00".toList none "hi".toList
      = [Flowable.paragraph "Результат оценки".toList "Heading1",
         Flowable.spacer 1 10,
         Flowable.paragraph ("Дата: ".toList ++ "01.01.2026 00:00:00".toList) "Meta",
         Flowable.spacer 1 12,
         Flowable.paragraph "Обратная связь:".toList "Heading2",
         Flowable.spacer 1 6,
         Flowable.paragraph (_escape_xml "hi".toList) "Body"] := by
  have h := c3_parse_failure_degrades convStub parseFailStub "Helvetica"
    "01.01.2026 00:00:00".toList none "hi".toList
    (by simp [convStub, pyStrip]) (by rfl)
  simpa using h

/-- C4: the assembler emits, in fixed order, the Heading1 title, a
spacer, the Meta timestamp line, a Meta score line exactly when a score
value is present and non-empty, a spacer, the Heading2 feedback label, a
spacer, then the block-renderer output of every top-level child of the
feedback tree in document order — or a single literal no-feedback Body
paragraph when that output is empty. -/
theorem c4_assembler_fixed_order (convert : Str → Str)
    (parse : Str → Option Element) (fn : String) (timestamp : Str)
    (score : Option Str) (feedback : Str) (root : Element)
    (hhtml : pyStrip (convert feedback) ≠ [])
    (hparse : parse (wrapRoot (convert feedback)) = some root) :
    _create_estimation_pdf convert parse fn timestamp score feedback
      = [Flowable.paragraph "Результат оценки".toList "Heading1",
         Flowable.spacer 1 10,
         Flowable.paragraph ("Дата: ".toList ++ timestamp) "Meta"]
        ++ (if score.getD [] ≠ [] then
              [Flowable.paragraph
                ("Оценка: <b>".toList ++ _escape_xml (score.getD []) ++ "</b>".toList)
                "Meta"]
            else [])
        ++ [Flowable.spacer 1 12,
            Flowable.paragraph "Обратная связь:".toList "Heading2",
            Flowable.spacer 1 6]
        ++ (if root.children.flatMap (fun c => _element_to_flowables c fn) = [] then
              [Flowable.paragraph "Нет обратной связи.".toList "Body"]
            else
              root.children.flatMap (fun c => _element_to_flowables c fn)) := by
  have hm : _markdown_to_flowables convert parse feedback fn
      = root.children.flatMap (fun c => _element_to_flowables c fn) := by
    simp only [_markdown_to_flowables]
    rw [if_neg hhtml, hparse]
  simp only [_create_estimation_pdf, hm]
  by_cases hfl : root.children.flatMap (fun c => _element_to_flowables c fn) = []
  · rcases score with _ | s
    · simp [hfl]
    · by_cases hs : s = [] <;> simp [hfl, hs]
  · rcases score with _ | s
    · simp [hfl]
    · by_cases hs : s = [] <;> simp [hfl, hs]

/-- C4 witness: assembling a parsed tree with one `h2` and one `p` child
and score `95`. -/
theorem c4_assembler_fixed_order_witness :
    _create_estimation_pdf convStub parseTreeStub "Helvetica"
        "ts".toList (some "95".toList) "fb".toList
      = [Flowable.paragraph "Результат оценки".toList "Heading1",
         Flowable.spacer 1 10,
         Flowable.paragraph ("Дата: ".toList ++ "ts".toList) "Meta",
         Flowable.paragraph "Оценка: <b>95</b>".toList "Meta",
         Flowable.spacer 1 12,
         Flowable.paragraph "Обратная связь:".toList "Heading2",
         Flowable.spacer 1 6,
         Flowable.paragraph "Result".toList "Heading2",
         Flowable.paragraph "Great job!".toList "Body"] := by
  rw [c4_assembler_fixed_order convStub parseTreeStub "Helvetica"
    "ts".toList (some "95".toList) "fb".toList exTree
    (by simp [convStub, pyStrip]) (by rfl)]
  simp [exTree, Element.children, Element.tag, Element.tail,
    _element_to_flowables, _inline_markup, inlineChildren, _wrap_inline,
    itertextStr, itertextFrags, itertextFragsList, optFrag, pyStrip,
    _escape_xml, escChar, pyCount, List.isPrefixOf,
    show pyLower "h2" = "h2" from rfl, show pyLower "p" = "p" from rfl]

/-- C5 counterexample: with no font file found anywhere, the resolver
returns the fallback font, but not all eight styles reference it — the
`Code` style pins `Courier`. -/
theorem c5_counterexample :
    _ensure_pdf_font [] (fun _ _ => false) (fun _ _ => false) = "Helvetica"
    ∧ styleFontName (_build_pdf_styles "Helvetica") "Code" = some "Courier"
    ∧ ¬(∀ p ∈ _build_pdf_styles "Helvetica", p.2.fontName = "Helvetica") := by
  refine ⟨by decide, by decide, fun h => ?_⟩
  have := h ("Code",
    { fontName := "Courier", fontSize := 10, leading := 12, spaceBefore := 4,
      spaceAfter := 8, leftIndent := 6, rightIndent := 6, firstLineIndent := 0,
      textColor := "black", backColor := some "whitesmoke" }) (by decide)
  simp at this

/-- C5 (amended): when the regular variant is not initially registered
and its file scan fails everywhere, the resolver returns the sentinel
fallback font with capability latin-only, and the styles built from the
fallback all reference it except `Code`, which pins `Courier`; a
registration failure on a candidate is treated as not-found and the
directory scan continues. -/
theorem c5_font_fallback (registered0 : List String)
    (fileExists regOk : String → String → Bool)
    (hreg : PDF_FONT_NAME ∉ registered0)
    (hscan : scanVariant fileExists regOk PDF_FONT_SEARCH_DIRS
      "LiberationSans-Regular.ttf" = false) :
    resolve registered0 fileExists regOk = ("Helvetica", "latin-only")
    ∧ (∀ p ∈ _build_pdf_styles "Helvetica",
        p.2.fontName = if p.1 = "Code" then "Courier" else "Helvetica")
    ∧ (∀ d rest f, fileExists d f = true → regOk d f = false →
        scanVariant fileExists regOk (d :: rest) f
          = scanVariant fileExists regOk rest f) := by
  have hnew : PDF_FONT_NAME ∉ PDF_FONT_VARIANTS.filterMap (fun fv =>
      if fv.1 ∈ registered0 then none
      else if scanVariant fileExists regOk PDF_FONT_SEARCH_DIRS fv.2 then some fv.1
      else none) := by
    intro hmem
    rcases List.mem_filterMap.mp hmem with ⟨fv, hfv, heq⟩
    simp only [PDF_FONT_VARIANTS, List.mem_cons, List.not_mem_nil, or_false] at hfv
    rcases hfv with h | h | h | h <;> subst h <;> split_ifs at heq <;>
      simp only [Option.some.injEq] at heq <;>
      first
      | exact hreg (heq ▸ ‹_›)
      | (rename_i hsc _; rw [PDF_FONT_NAME] at *; simp_all)
  have hfont : _ensure_pdf_font registered0 fileExists regOk = "Helvetica" := by
    simp only [_ensure_pdf_font]
    rw [if_neg hreg, if_neg]
    intro hmem
    rcases List.mem_append.mp hmem with h | h
    · exact hreg h
    · exact hnew h
  refine ⟨?_, by decide, ?_⟩
  · simp [resolve, hfont, PDF_FONT_NAME]
  · intro d rest f h1 h2
    simp [scanVariant, h1, h2]

/-- C5 witness: with an empty registry and no font file present, the
resolver falls back and the styles follow. -/
theorem c5_font_fallback_witness :
    resolve [] (fun _ _ => false) (fun _ _ => false) = ("Helvetica", "latin-only")
    ∧ (∀ p ∈ _build_pdf_styles "Helvetica",
        p.2.fontName = if p.1 = "Code" then "Courier" else "Helvetica")
    ∧ (∀ d rest f, (fun _ _ => false : String → String → Bool) d f = true →
        (fun _ _ => false : String → String → Bool) d f = false →
        scanVariant (fun _ _ => false) (fun _ _ => false) (d :: rest) f
          = scanVariant (fun _ _ => false) (fun _ _ => false) rest f) :=
  c5_font_fallback [] (fun _ _ => false) (fun _ _ => false)
    (by decide) (by decide)

/-- C6: a `ul`/`ol` emits exactly the direct `li` children whose trimmed
inline-rendered text is non-empty, in document order, as the items of a
single list unit followed by a spacer; when no item survives it emits
nothing at all. -/
theorem c6_list_drops_empty_items (e : Element) (fn : String)
    (h : pyLower e.tag = "ul" ∨ pyLower e.tag = "ol") :
    ((findall e "li").filterMap (fun li =>
        if pyStrip (_inline_markup li) = [] then none
        else some (pyStrip (_inline_markup li))) = [] →
      _element_to_flowables e fn = [])
    ∧ ((findall e "li").filterMap (fun li =>
        if pyStrip (_inline_markup li) = [] then none
        else some (pyStrip (_inline_markup li))) ≠ [] →
      ∃ bt bc st,
        _element_to_flowables e fn
          = [Flowable.listFlowable
              (((findall e "li").filterMap (fun li =>
                if pyStrip (_inline_markup li) = [] then none
                else some (pyStrip (_inline_markup li)))).map (fun t => (t, "ListBody")))
              bt fn 11 bc 12 st,
             Flowable.spacer 1 6]) := by
  have hitems : _list_items_from_elements (findall e "li")
      = ((findall e "li").filterMap (fun li =>
          if pyStrip (_inline_markup li) = [] then none
          else some (pyStrip (_inline_markup li)))).map (fun t => (t, "ListBody")) := by
    simp only [_list_items_from_elements, List.map_filterMap, apply_ite,
      Option.map_some', Option.map_none']
  constructor
  · intro hrend
    rcases h with h | h <;>
      (simp only [_element_to_flowables]
       rw [h]
       simp [hitems, hrend])
  · intro hrend
    rcases h with h | h
    · refine ⟨"bullet", some '•', none, ?_⟩
      simp only [_element_to_flowables]
      rw [h]
      simp [hitems, hrend]
    · refine ⟨"1", none, some (olStart e), ?_⟩
      simp only [_element_to_flowables]
      rw [h]
      simp [hitems, hrend, olStart]

/-- C6 witness: the unordered list with items `a`, ``, `b` keeps exactly
`a` and `b`, in order. -/
theorem c6_list_drops_empty_items_witness :
    (findall exUl "li").filterMap (fun li =>
        if pyStrip (_inline_markup li) = [] then none
        else some (pyStrip (_inline_markup li)))
      = ["a".toList, "b".toList]
    ∧ _element_to_flowables exUl "Helvetica"
      = [Flowable.listFlowable [("a".toList, "ListBody"), ("b".toList, "ListBody")]
          "bullet" "Helvetica" 11 (some '•') 12 none,
         Flowable.spacer 1 6] := by
  have hf : (findall exUl "li").filterMap (fun li =>
      if pyStrip (_inline_markup li) = [] then none
      else some (pyStrip (_inline_markup li)))
      = ["a".toList, "b".toList] := by
    simp [exUl, findall, Element.children, Element.tag, _inline_markup,
      inlineChildren, _escape_xml, escChar, pyStrip]
  refine ⟨hf, ?_⟩
  rcases (c6_list_drops_empty_items exUl "Helvetica" (Or.inl (by rfl))).2
      (by rw [hf]; simp) with ⟨bt, bc, st, hflow⟩
  rw [hflow, hf]
  -- pin down the existential components for the ul branch
  have : _element_to_flowables exUl "Helvetica"
      = [Flowable.listFlowable [("a".toList, "ListBody"), ("b".toList, "ListBody")]
          "bullet" "Helvetica" 11 (some '•') 12 none,
         Flowable.spacer 1 6] := by
    simp [exUl, _element_to_flowables, show pyLower "ul" = "ul" from rfl,
      Element.tag, findall, Element.children, _list_items_from_elements,
      _inline_markup, inlineChildren, _escape_xml, escChar, pyStrip]
  rw [hflow, hf] at this
  simpa using this

/-- C7: for an `ol` that emits a list, an explicit integer `start`
attribute sets the first number, a missing attribute defaults it to 1,
and an invalid (non-integer) value is normalized to 1, with no error
surfaced (the renderer is total). -/
theorem c7_ol_start_normalized (e : Element) (fn : String)
    (h : pyLower e.tag = "ol")
    (hitems : _list_items_from_elements (findall e "li") ≠ []) :
    (∃ items bt bc,
      _element_to_flowables e fn
        = [Flowable.listFlowable items bt fn 11 bc 12 (some (olStart e)),
           Flowable.spacer 1 6])
    ∧ (attribGet e "start" = none → olStart e = 1)
    ∧ (∀ v, attribGet e "start" = some v → pyInt v = none → olStart e = 1)
    ∧ (∀ v n, attribGet e "start" = some v → pyInt v = some n → olStart e = n) := by
  refine ⟨?_, ?_, ?_, ?_⟩
  · refine ⟨_list_items_from_elements (findall e "li"), "1", none, ?_⟩
    simp only [_element_to_flowables]
    rw [h]
    simp [hitems, olStart]
  · intro h0
    simp only [olStart, h0]
    decide
  · intro v hv hbad
    simp only [olStart, hv]
    by_cases hve : v = []
    · subst hve
      decide
    · rw [if_neg hve, hbad]
      rfl
  · intro v n hv hn
    have hne : v ≠ [] := by
      rintro rfl
      rw [show pyInt [] = none from rfl] at hn
      exact Option.noConfusion hn
    simp only [olStart, hv]
    rw [if_neg hne, hn]
    rfl

/-- C7 witness: `start="abc"` is normalized to a starting number of 1. -/
theorem c7_ol_start_normalized_witness :
    _element_to_flowables exOlBad "Helvetica"
      = [Flowable.listFlowable [("x".toList, "ListBody")] "1" "Helvetica" 11
          none 12 (some 1),
         Flowable.spacer 1 6]
    ∧ olStart exOlBad = 1 := by
  have hitems : _list_items_from_elements (findall exOlBad "li")
      = [("x".toList, "ListBody")] := by
    simp [exOlBad, findall, Element.children, Element.tag,
      _list_items_from_elements, _inline_markup, inlineChildren,
      _escape_xml, escChar, pyStrip]
  have hstart : olStart exOlBad = 1 :=
    (c7_ol_start_normalized exOlBad "Helvetica" (by rfl)
        (by rw [hitems]; simp)).2.2.1 "abc".toList (by rfl) (by decide)
  refine ⟨?_, hstart⟩
  rcases (c7_ol_start_normalized exOlBad "Helvetica" (by rfl)
      (by rw [hitems]; simp)).1 with ⟨items, bt, bc, hflow⟩
  have heval : _element_to_flowables exOlBad "Helvetica"
      = [Flowable.listFlowable [("x".toList, "ListBody")] "1" "Helvetica" 11
          none 12 (some (olStart exOlBad)),
         Flowable.spacer 1 6] := by
    simp [exOlBad, _element_to_flowables, show pyLower "ol" = "ol" from rfl,
      Element.tag, findall, Element.children, _list_items_from_elements,
      _inline_markup, inlineChildren, _escape_xml, escChar, pyStrip, olStart,
      attribGet, Element.attrib]
  rw [heval, hstart]

/-- C9 counterexample: a table whose cell content lives in a `th` (and
whose only `td` is empty) still renders a row paragraph and a trailing
spacer, although no `td`-derived row is non-empty. -/
theorem c9_counterexample :
    _element_to_flowables exTableTh "Helvetica"
      = [Flowable.paragraph "x".toList "Body", Flowable.spacer 1 6]
    ∧ ((findall exTableTh "tr").map (fun tr =>
        joinSep " | ".toList (((findall tr "td").map (fun td =>
          pyStrip (joinSep " ".toList (itertextFrags td)))).filter (· ≠ []))))
      = [[], []] := by
  constructor
  · simp [exTableTh, _element_to_flowables, show pyLower "table" = "table" from rfl,
      Element.tag, Element.tail, findall, Element.children, itertextFrags,
      itertextFragsList, optFrag, pyStrip, joinSep, _escape_xml, escChar]
  · simp [exTableTh, findall, Element.children, Element.tag, Element.tail,
      itertextFrags, itertextFragsList, optFrag, pyStrip, joinSep]

/-- C9 (amended): a table renders, for each direct `tr` child, the
vertical-bar join of the trimmed descendant texts of all of its child
elements (`th` as well as `td`), skipping empty cells; each non-empty
row becomes one escaped Body paragraph, and a trailing spacer is
appended exactly when the table has at least one `tr` child (even if
every row string is empty). -/
theorem c9_table_rows (e : Element) (fn : String)
    (h : pyLower e.tag = "table") :
    (findall e "tr" = [] → _element_to_flowables e fn = [])
    ∧ (findall e "tr" ≠ [] →
        _element_to_flowables e fn
          = ((((findall e "tr").map (fun tr =>
                joinSep " | ".toList ((tr.children.map (fun td =>
                  pyStrip (joinSep " ".toList (itertextFrags td)))).filter
                  (· ≠ [])))).filter (· ≠ [])).map
              (fun row => Flowable.paragraph (_escape_xml row) "Body"))
            ++ [Flowable.spacer 1 6]) := by
  constructor
  · intro h0
    simp only [_element_to_flowables]
    rw [h]
    simp [h0]
  · intro h0
    simp only [_element_to_flowables]
    rw [h]
    simp [h0]

/-- C9 witness: the two-row table keeps the `th` text as a row and the
trailing spacer follows from the presence of `tr` children. -/
theorem c9_table_rows_witness :
    findall exTableTh "tr" ≠ []
    ∧ _element_to_flowables exTableTh "Helvetica"
      = [Flowable.paragraph "x".toList "Body", Flowable.spacer 1 6] := by
  have htr : findall exTableTh "tr" ≠ [] := by
    simp [exTableTh, findall, Element.children, Element.tag]
  refine ⟨htr, ?_⟩
  rw [(c9_table_rows exTableTh "Helvetica" (by rfl)).2 htr]
  simp [exTableTh, findall, Element.children, Element.tag, Element.tail,
    itertextFrags, itertextFragsList, optFrag, pyStrip, joinSep,
    _escape_xml, escChar]

/-- C10: every block element whose tag is not `ul`, `ol`, `blockquote`
or `table` produces at least one layout unit. -/
theorem c10_nonlist_block_nonempty (e : Element) (fn : String)
    (h : pyLower e.tag ∉ ["ul", "ol", "blockquote", "table"]) :
    _element_to_flowables e fn ≠ [] := by
  simp only [List.mem_cons, List.not_mem_nil, or_false, not_or] at h
  obtain ⟨hul, hol, hbq, htb⟩ := h
  simp only [_element_to_flowables]
  split_ifs <;> simp_all

/-- C10 witness: an unknown empty `figure` block still yields a spacer. -/
theorem c10_nonlist_block_nonempty_witness :
    _element_to_flowables exUnknown "Helvetica" ≠ [] :=
  c10_nonlist_block_nonempty exUnknown "Helvetica" (by decide)
